import Mathlib

/-!
Verification of `soulmemory-rs/src/games/traits/buffered_event_flags.rs`.

The file defines an event-record model (`EventFlagValue`, `EventFlag`), a
Display implementation for both, two constructors (`from_state`,
`from_quantity`) and the trait `BufferedEventFlags` whose default method
`get_buffered_flags` drains a mutex-guarded `Vec<EventFlag>` by an atomic
`mem::replace` with a fresh empty vector.

We embed the data model shallowly: `Vec<EventFlag>` becomes `List EventFlag`,
`u32` becomes `Fin (2 ^ 32)`, `i32` becomes `Int` (the program only stores and
prints quantities, so no wrap-around arithmetic occurs), and
`DateTime<Local>` becomes a record of calendar fields at millisecond
resolution, which is exactly the information the format string
`"%Y-%m-%d %H:%M:%S%.3f"` consumes.
-/

/-- Decimal digit to character, as Rust's integer formatting produces it. -/
def digitChar (n : Nat) : Char := Char.ofNat (48 + n)

/-- Fuel-driven accumulator loop producing the decimal digits of `n` in order,
mirroring the digit loop of Rust's `Display for u32`/`i32` (most significant
first, no leading zeros, `0` printed as `"0"`). -/
def natDecAux : Nat → Nat → List Char → List Char
  | 0, _, acc => acc
  | fuel + 1, n, acc =>
    if n < 10 then digitChar n :: acc
    else natDecAux fuel (n / 10) (digitChar (n % 10) :: acc)

/-- The decimal representation of a natural number, as Rust's `{}` format
prints an unsigned integer. -/
def natDecChars (n : Nat) : List Char := natDecAux (n + 1) n []

/-- The decimal representation of a signed integer, as Rust's `{}` format
prints an `i32`: a leading minus sign for negatives, plain digits otherwise. -/
def intDecChars (i : Int) : List Char :=
  if i < 0 then '-' :: natDecChars i.natAbs else natDecChars i.toNat

/-- Left padding with a fill character up to a minimum width, as Rust's
format spec `{:c>w}`: shorter strings get fill on the left, wider strings are
not truncated (`Nat` subtraction makes the pad empty in that case). -/
def padCharsLeft (c : Char) (w : Nat) (s : List Char) : List Char :=
  List.replicate (w - s.length) c ++ s

/-- `EventFlagValue` from the source: `State(bool) | Quantity(i32)`. -/
inductive EventFlagValue where
  | State : Bool → EventFlagValue
  | Quantity : Int → EventFlagValue
deriving DecidableEq

/-- The calendar fields of a `chrono::DateTime<Local>` at the resolution the
program observes through its format string (milliseconds). -/
structure DateTimeLocal where
  year : Nat
  month : Nat
  day : Nat
  hour : Nat
  minute : Nat
  second : Nat
  millisecond : Nat
deriving DecidableEq

/-- `EventFlag` from the source: `time: DateTime<Local>, flag: u32,
value: EventFlagValue`. -/
structure EventFlag where
  time : DateTimeLocal
  flag : Fin (2 ^ 32)
  value : EventFlagValue
deriving DecidableEq

/-- `impl Display for EventFlagValue`: `State(b)` prints the lowercase boolean
literal (Rust's `Display for bool`), `Quantity(q)` prints the decimal
representation (Rust's `Display for i32`). -/
def displayEventFlagValue : EventFlagValue → String
  | EventFlagValue.State b => if b then "true" else "false"
  | EventFlagValue.Quantity q => String.mk (intDecChars q)

/-- `chrono`'s rendering of the format string `"%Y-%m-%d %H:%M:%S%.3f"`:
year zero-padded to 4 digits, month/day/hour/minute/second zero-padded to 2,
then a dot and the milliseconds zero-padded to 3. -/
def formatTime (t : DateTimeLocal) : List Char :=
  padCharsLeft '0' 4 (natDecChars t.year) ++ '-' ::
  padCharsLeft '0' 2 (natDecChars t.month) ++ '-' ::
  padCharsLeft '0' 2 (natDecChars t.day) ++ ' ' ::
  padCharsLeft '0' 2 (natDecChars t.hour) ++ ':' ::
  padCharsLeft '0' 2 (natDecChars t.minute) ++ ':' ::
  padCharsLeft '0' 2 (natDecChars t.second) ++ '.' ::
  padCharsLeft '0' 3 (natDecChars t.millisecond)

/-- `impl Display for EventFlag`: the format string
`"{} - {: >10} - {}"` applied to the formatted time, the flag right-aligned
in a minimum field width of 10 with space fill, and the value. -/
def displayEventFlag (e : EventFlag) : String :=
  String.mk (formatTime e.time) ++ " - " ++
  String.mk (padCharsLeft ' ' 10 (natDecChars e.flag.val)) ++ " - " ++
  displayEventFlagValue e.value

/-- `EventFlag::from_state`. -/
def from_state (time : DateTimeLocal) (flag : Fin (2 ^ 32)) (state : Bool) :
    EventFlag :=
  { time := time, flag := flag, value := EventFlagValue.State state }

/-- `EventFlag::from_quantity`. -/
def from_quantity (time : DateTimeLocal) (flag : Fin (2 ^ 32))
    (quantity : Int) : EventFlag :=
  { time := time, flag := flag, value := EventFlagValue.Quantity quantity }

/-- The default method `BufferedEventFlags::get_buffered_flags`, acting on the
contents of the mutex-guarded storage: `mem::replace(&mut event_flags,
Vec::new())` returns the old contents and leaves the empty vector behind.
The pair is (returned batch, storage afterwards). -/
def get_buffered_flags (storage : List EventFlag) :
    List EventFlag × List EventFlag :=
  (storage, [])

/-- Modelled from the spec: the producer append path is not in `src/` (the
concrete games push records into the storage obtained from
`access_flag_storage`); the spec describes it as an append-only "single
insertion at the end" of the ordered sequence. -/
def append_flag (storage : List EventFlag) (r : EventFlag) :
    List EventFlag :=
  storage ++ [r]

/-- Modelled from the spec: a producer appending a sequence of records one at
a time, in order. -/
def append_all (storage : List EventFlag) (rs : List EventFlag) :
    List EventFlag :=
  rs.foldl append_flag storage

/-- `lock().unwrap()` in `get_buffered_flags`: Rust's `Mutex::lock` returns
`Err` exactly when the mutex is poisoned, and `unwrap` turns that `Err` into
a panic. `none` models the panic (a fatal abort, not a recoverable value);
`some` carries the result of the drain. -/
def get_buffered_flags_locked (poisoned : Bool)
    (storage : List EventFlag) :
    Option (List EventFlag × List EventFlag) :=
  if poisoned then none else some (get_buffered_flags storage)

/-- A concrete implementer of the `BufferedEventFlags` trait: it supplies the
two required primitives — `access_flag_storage` (the `flag_storage` field)
and `get_event_flag_state` (the `event_flag_state` field) — and may carry
arbitrary further state (`other_state`), which the default method never
mentions. -/
structure GameState (σ : Type) where
  flag_storage : List EventFlag
  event_flag_state : Fin (2 ^ 32) → Bool
  other_state : σ

/-- The default `get_buffered_flags` run on an implementer: it reads and
replaces only the storage reached through `access_flag_storage`. -/
def game_get_buffered_flags {σ : Type} (g : GameState σ) :
    List EventFlag × GameState σ :=
  let p := get_buffered_flags g.flag_storage
  (p.1, { g with flag_storage := p.2 })

-- Basic lemmas about the embedding.

theorem append_all_eq_append (storage rs : List EventFlag) :
    append_all storage rs = storage ++ rs := by
  induction rs generalizing storage with
  | nil => simp [append_all]
  | cons r rs ih =>
    simp only [append_all, List.foldl_cons] at *
    rw [ih (append_flag storage r)]
    simp [append_flag]

theorem natDecAux_length_le (fuel : Nat) :
    ∀ (n : Nat) (acc : List Char) (k : Nat), 1 ≤ k → n < 10 ^ k →
      (natDecAux fuel n acc).length ≤ k + acc.length := by
  induction fuel with
  | zero => intro n acc k _ _; simp [natDecAux]
  | succ fuel ih =>
    intro n acc k hk hn
    by_cases h : n < 10
    · simp [natDecAux, h]; omega
    · simp only [natDecAux, if_neg h]
      have hk2 : 2 ≤ k := by
        by_contra hcon
        have : k = 1 := by omega
        subst this
        simp at hn
        omega
      have hdiv : n / 10 < 10 ^ (k - 1) := by
        have h10 : 0 < 10 := by norm_num
        rw [Nat.div_lt_iff_lt_mul h10]
        have : 10 ^ (k - 1) * 10 = 10 ^ k := by
          rw [← pow_succ]
          congr 1
          omega
        omega
      have := ih (n / 10) (digitChar (n % 10) :: acc) (k - 1) (by omega) hdiv
      simp at this
      omega

theorem natDecChars_length_le (n k : Nat) (hk : 1 ≤ k) (hn : n < 10 ^ k) :
    (natDecChars n).length ≤ k := by
  have := natDecAux_length_le (n + 1) n [] k hk hn
  simpa [natDecChars] using this

theorem padCharsLeft_length (c : Char) (w : Nat) (s : List Char) :
    (padCharsLeft c w s).length = max w s.length := by
  simp [padCharsLeft]
  omega

/-- One concurrent scenario of appends around a single drain, linearized by
the buffer's lock: the appends that win the lock before the drain's atomic
exchange (`pre`), the exchange itself, then the appends that acquire the lock
after it (`post`). Returns (drained batch, buffer contents afterwards). -/
def run_one_drain (b0 pre post : List EventFlag) :
    List EventFlag × List EventFlag :=
  let p := get_buffered_flags (append_all b0 pre)
  (p.1, append_all p.2 post)

theorem run_one_drain_eq (b0 pre post : List EventFlag) :
    run_one_drain b0 pre post = (b0 ++ pre, post) := by
  simp [run_one_drain, get_buffered_flags, append_all_eq_append]

/-- A concrete record used to instantiate witnesses. -/
def sampleFlag : EventFlag := from_state ⟨2023, 1, 1, 0, 0, 0, 123⟩ 7 true

/-- C1: draining after N in-order appends to an initially empty buffer
returns exactly those N records in append order, and leaves the buffer
empty. -/
theorem drain_completeness (rs : List EventFlag) :
    get_buffered_flags (append_all [] rs) = (rs, []) := by
  simp [append_all_eq_append, get_buffered_flags]

/-- C2: in any interleaving of appends `as` with one drain — which the lock
linearizes into the `j` appends that precede the atomic exchange and the rest
that follow it — record occurrences are conserved between the drained batch
and the remaining buffer, and a record appended exactly once (and not already
buffered) ends up in exactly one of the two, never both, never neither. -/
theorem no_loss_under_concurrency (b0 as : List EventFlag) (j : Nat)
    (r : EventFlag) :
    ((run_one_drain b0 (as.take j) (as.drop j)).1.count r
      + (run_one_drain b0 (as.take j) (as.drop j)).2.count r
      = b0.count r + as.count r)
    ∧ (as.count r = 1 → b0.count r = 0 →
        (((run_one_drain b0 (as.take j) (as.drop j)).1.count r = 1
          ∧ (run_one_drain b0 (as.take j) (as.drop j)).2.count r = 0)
        ∨ ((run_one_drain b0 (as.take j) (as.drop j)).1.count r = 0
          ∧ (run_one_drain b0 (as.take j) (as.drop j)).2.count r = 1))) := by
  rw [run_one_drain_eq]
  have hsplit : (as.take j).count r + (as.drop j).count r = as.count r := by
    rw [← List.count_append, List.take_append_drop]
  constructor
  · simp [List.count_append]
    omega
  · intro h1 h2
    simp [List.count_append, h2]
    omega

/-- Witness for C2: the single record appended before the exchange lands in
the drained batch and not in the buffer left behind. -/
theorem no_loss_under_concurrency_witness :
    (((run_one_drain [] ([sampleFlag].take 1) ([sampleFlag].drop 1)).1.count
        sampleFlag = 1
      ∧ (run_one_drain [] ([sampleFlag].take 1)
          ([sampleFlag].drop 1)).2.count sampleFlag = 0)
    ∨ ((run_one_drain [] ([sampleFlag].take 1)
          ([sampleFlag].drop 1)).1.count sampleFlag = 0
      ∧ (run_one_drain [] ([sampleFlag].take 1)
          ([sampleFlag].drop 1)).2.count sampleFlag = 1)) :=
  (no_loss_under_concurrency [] [sampleFlag] 1 sampleFlag).2 (by decide)
    (by decide)

/-- C3: a record appended after a drain has returned is absent from that
drain's result and appears exactly once in the next drain's result. -/
theorem drain_isolation (b ys : List EventFlag) (r : EventFlag)
    (hb : r ∉ b) (hy : ys.count r = 1) :
    r ∉ (get_buffered_flags b).1
    ∧ (get_buffered_flags
        (append_all (get_buffered_flags b).2 ys)).1.count r = 1 := by
  constructor
  · simpa [get_buffered_flags] using hb
  · simpa [get_buffered_flags, append_all_eq_append] using hy

/-- Witness for C3: a record appended after an empty drain is absent from the
first result and drained exactly once by the second. -/
theorem drain_isolation_witness :
    sampleFlag ∉ (get_buffered_flags []).1
    ∧ (get_buffered_flags
        (append_all (get_buffered_flags []).2 [sampleFlag])).1.count
        sampleFlag = 1 :=
  drain_isolation [] [sampleFlag] sampleFlag (by decide) (by decide)

/-- C4: draining an empty buffer returns the empty sequence and leaves the
buffer empty, and a second drain immediately after any drain returns the
empty sequence. -/
theorem idempotent_empty_drain :
    get_buffered_flags ([] : List EventFlag) = ([], [])
    ∧ ∀ b : List EventFlag,
        (get_buffered_flags (get_buffered_flags b).2).1 = [] := by
  refine ⟨rfl, ?_⟩
  intro b
  rfl

/-- C5: the Display rendering of an `EventFlag` is the formatted time, a
separator, the flag right-aligned by left space padding to a minimum field
width of 10 (never truncated: the padded field is exactly `max 10` the digit
count wide and ends in the digits), a separator, and the rendered value; in
particular the record `from_state(2023-01-01 00:00:00.123, 7, true)` renders
as the exact example string. -/
theorem display_fidelity :
    (∀ (t : DateTimeLocal) (f : Fin (2 ^ 32)) (v : EventFlagValue),
      displayEventFlag ⟨t, f, v⟩ =
        String.mk (formatTime t) ++ " - " ++
        String.mk (List.replicate (10 - (natDecChars f.val).length) ' '
          ++ natDecChars f.val) ++ " - " ++
        displayEventFlagValue v)
    ∧ (∀ s : List Char,
        (padCharsLeft ' ' 10 s).length = max 10 s.length
        ∧ List.IsSuffix s (padCharsLeft ' ' 10 s))
    ∧ displayEventFlag (from_state ⟨2023, 1, 1, 0, 0, 0, 123⟩ 7 true) =
        "2023-01-01 00:00:00.123 -          7 - true" := by
  refine ⟨?_, ?_, by decide⟩
  · intro t f v
    simp [displayEventFlag, padCharsLeft]
  · intro s
    refine ⟨padCharsLeft_length ' ' 10 s, ⟨_, rfl⟩⟩

/-- C6: `State` renders as the lowercase boolean literal, and `Quantity`
renders as the plain decimal representation — a leading minus sign followed
by the digits of the absolute value for negatives, plain digits for
non-negatives; in particular `Quantity(-5)` renders as `"-5"`. -/
theorem event_value_display (n : Int) (m : Nat) (hn : n < 0) :
    displayEventFlagValue (EventFlagValue.State true) = "true"
    ∧ displayEventFlagValue (EventFlagValue.State false) = "false"
    ∧ displayEventFlagValue (EventFlagValue.Quantity n) =
        String.mk ('-' :: natDecChars n.natAbs)
    ∧ displayEventFlagValue (EventFlagValue.Quantity (m : Int)) =
        String.mk (natDecChars m)
    ∧ displayEventFlagValue (EventFlagValue.Quantity (-5)) = "-5" := by
  refine ⟨rfl, rfl, ?_, ?_, by decide⟩
  · simp [displayEventFlagValue, intDecChars, hn]
  · simp only [displayEventFlagValue, intDecChars]
    rw [if_neg (by omega)]
    simp

/-- Witness for C6 at `n = -5`, `m = 5`. -/
theorem event_value_display_witness :
    displayEventFlagValue (EventFlagValue.State true) = "true"
    ∧ displayEventFlagValue (EventFlagValue.State false) = "false"
    ∧ displayEventFlagValue (EventFlagValue.Quantity (-5)) =
        String.mk ('-' :: natDecChars (Int.natAbs (-5)))
    ∧ displayEventFlagValue (EventFlagValue.Quantity ((5 : Nat) : Int)) =
        String.mk (natDecChars 5)
    ∧ displayEventFlagValue (EventFlagValue.Quantity (-5)) = "-5" :=
  event_value_display (-5) 5 (by decide)

/-- C7: `from_state` and `from_quantity` build records whose `time`, `flag`
and `value` fields are exactly the given arguments, with value `State b`
respectively `Quantity q`; they are total over every 32-bit flag (zero
included) and every input, performing no validation. -/
theorem constructors_pure (t : DateTimeLocal) (f : Fin (2 ^ 32)) (b : Bool)
    (q : Int) :
    (from_state t f b).time = t
    ∧ (from_state t f b).flag = f
    ∧ (from_state t f b).value = EventFlagValue.State b
    ∧ (from_quantity t f q).time = t
    ∧ (from_quantity t f q).flag = f
    ∧ (from_quantity t f q).value = EventFlagValue.Quantity q := by
  exact ⟨rfl, rfl, rfl, rfl, rfl, rfl⟩

/-- C8: construction never fails (the constructors are total functions into
`EventFlag`), and the only failure path of `get_buffered_flags` is the
`unwrap` of a poisoned lock, modelled as `none` (a fatal panic, not a
recoverable error value); with an unpoisoned lock the drain always succeeds
with the full contents. -/
theorem error_surface (b : List EventFlag) (t : DateTimeLocal)
    (f : Fin (2 ^ 32)) (s : Bool) (q : Int) :
    from_state t f s = ⟨t, f, EventFlagValue.State s⟩
    ∧ from_quantity t f q = ⟨t, f, EventFlagValue.Quantity q⟩
    ∧ get_buffered_flags_locked false b = some (b, [])
    ∧ get_buffered_flags_locked true b = none := by
  exact ⟨rfl, rfl, rfl, rfl⟩

/-- C9: the default `get_buffered_flags` reads and clears only the storage
reached through `access_flag_storage`: the implementer's other state and its
`get_event_flag_state` function are untouched, the result depends only on
the storage (so `get_event_flag_state` is never consulted), and the drained
batch is exactly the stored records, unmodified, in order. -/
theorem drain_frame (σ : Type) (g g2 : GameState σ)
    (rs : List EventFlag) (h : g.flag_storage = g2.flag_storage) :
    (game_get_buffered_flags g).1 = g.flag_storage
    ∧ (game_get_buffered_flags g).2.other_state = g.other_state
    ∧ (game_get_buffered_flags g).2.event_flag_state = g.event_flag_state
    ∧ (game_get_buffered_flags g).2.flag_storage = []
    ∧ (game_get_buffered_flags g).1 = (game_get_buffered_flags g2).1
    ∧ (game_get_buffered_flags
        { g with flag_storage := append_all g.flag_storage rs }).1
      = g.flag_storage ++ rs := by
  refine ⟨rfl, rfl, rfl, rfl, ?_, ?_⟩
  · simp [game_get_buffered_flags, get_buffered_flags, h]
  · simp [game_get_buffered_flags, get_buffered_flags, append_all_eq_append]

/-- A concrete implementer used to instantiate the frame witness. -/
def sampleGame : GameState Nat :=
  { flag_storage := [sampleFlag], event_flag_state := fun _ => false,
    other_state := 0 }

/-- A second implementer with the same storage as `sampleGame` but different
live-flag function and other state. -/
def sampleGame2 : GameState Nat :=
  { flag_storage := [sampleFlag], event_flag_state := fun _ => true,
    other_state := 7 }

/-- Witness for C9: two implementers sharing a storage but differing in
their other state and live-flag function drain to the same batch. -/
theorem drain_frame_witness :
    (game_get_buffered_flags sampleGame).1 = sampleGame.flag_storage
    ∧ (game_get_buffered_flags sampleGame).2.other_state
      = sampleGame.other_state
    ∧ (game_get_buffered_flags sampleGame).2.event_flag_state
      = sampleGame.event_flag_state
    ∧ (game_get_buffered_flags sampleGame).2.flag_storage = []
    ∧ (game_get_buffered_flags sampleGame).1
      = (game_get_buffered_flags sampleGame2).1
    ∧ (game_get_buffered_flags
        { sampleGame with
          flag_storage := append_all sampleGame.flag_storage [sampleFlag] }).1
      = sampleGame.flag_storage ++ [sampleFlag] :=
  drain_frame Nat sampleGame sampleGame2 [sampleFlag] rfl

/-- C10: because the flag is a 32-bit unsigned integer its decimal form has
at most 10 digits, so the right-aligned minimum-width-10 field is always
exactly 10 characters wide — the no-truncation case is unreachable. -/
theorem flag_field_width_exact (f : Fin (2 ^ 32)) :
    (natDecChars f.val).length ≤ 10
    ∧ (padCharsLeft ' ' 10 (natDecChars f.val)).length = 10 := by
  have hf : f.val < 10 ^ 10 := lt_trans f.isLt (by norm_num)
  have hlen := natDecChars_length_le f.val 10 (by norm_num) hf
  refine ⟨hlen, ?_⟩
  rw [padCharsLeft_length]
  omega
